import Mathlib

/-!
Shallow embedding of `src/alsa_trinkey/alsa_trinkey.ino`, a single-file
Arduino sketch driving a NeoPixel strip from serial "code" tokens and two
capacitive touch pads.

Modelling conventions:
* Machine integers: the sketch's `int x` and `int16_t neo_brightness` are
  modelled as `Int`.  On the reachable states proved below the brightness
  stays in `[-1, 256]` before clamping and `[0, 255]` after, far inside
  `int16_t`, so no wraparound is dropped by this choice.  C++ `%` and `/`
  on `int` truncate toward zero, which is `Int.tmod` / `Int.tdiv`.
* `strip.Color(r,g,b)` packs `(r << 16) | (g << 8) | b` into a `uint32_t`;
  the 4-argument form adds `w << 24`. Colors are kept as the packed `Nat`.
* Array reads `bit_cols[i]` / `sample_cols[i]` have no bounds check in the
  source.  An in-bounds read returns the table entry; an out-of-bounds read
  is undefined behaviour, modelled by an arbitrary memory function
  `oob : List Nat → Int → Nat` the theorems quantify over.  `tableGet?`
  is the partial (Option) view used to state in/out-of-bounds facts.
* The LED driver (`Adafruit_NeoPixel`) is external: `setPixelColor` writes
  one pixel if the index is in range, `fill(c, first, count)` clamps the
  fill range to the end of the strip (as the library does), `show` and
  `setBrightness` only emit hardware effects.  Hardware effects of a tick
  are collected in a `List DriverOp` trace.
* `String.toInt()` on Arduino is `atol` of the buffer: skip leading
  whitespace, one optional sign, then a run of decimal digits (an empty
  run yields 0).  Overflow of `long` in `atol` is undefined behaviour and
  only small codes appear below, so the parse is modelled on unbounded
  `Int`.
-/

/-- Packing of `strip.Color(r, g, b)` : 0x00RRGGBB. -/
def stripColor3 (r g b : Nat) : Nat := r * 65536 + g * 256 + b

/-- Packing of `strip.Color(r, g, b, w)` : 0xWWRRGGBB. -/
def stripColor4 (r g b w : Nat) : Nat := w * 16777216 + r * 65536 + g * 256 + b

def greenishwhite : Nat := stripColor4 0 64 0 64
def blueishwhite  : Nat := stripColor4 0 0 64 64
def redishwhite   : Nat := stripColor4 64 0 0 64

def black        : Nat := stripColor3 0 0 0
def yellow       : Nat := stripColor3 255 255 0
def orange       : Nat := stripColor3 255 140 0
def cyan         : Nat := stripColor3 0 255 255
def lightcyan    : Nat := stripColor3 102 205 170
def darkcyan     : Nat := stripColor3 0 128 128
def lightmagenta : Nat := stripColor3 238 130 238
def magenta      : Nat := stripColor3 255 0 255
def cream        : Nat := stripColor3 250 250 210
def white        : Nat := stripColor3 255 255 255
def red          : Nat := stripColor3 255 0 0
def darkred      : Nat := stripColor3 139 0 0
def green        : Nat := stripColor3 0 255 0
def blue         : Nat := stripColor3 0 0 255

/-- Table `uint32_t sample_cols[]` : off 44.1 48 88.2 96 176 192 365 384 error. -/
def sample_cols : List Nat :=
  [black, yellow, orange, lightcyan, darkcyan, lightmagenta, magenta, cream, white, darkred]

/-- Table `uint32_t bit_cols[]` : off 16 24 32 error. -/
def bit_cols : List Nat := [black, red, green, blue, darkred]

/-- Partial view of a C array read: `some` entry when the index is in
bounds, `none` when the read would run past the table. -/
def tableGet? (t : List Nat) (i : Int) : Option Nat :=
  if 0 ≤ i then t.get? i.toNat else none

/-- Total view of a C array read used by the executable model: in bounds it
is the table entry, out of bounds it is whatever the adjacent memory holds,
abstracted as the function `oob`. -/
def tableGet (t : List Nat) (oob : List Nat → Int → Nat) (i : Int) : Nat :=
  match tableGet? t i with
  | some c => c
  | none => oob t i

/-- Hardware-visible LED-driver operations (the four operations the sketch
consumes, §6 of the spec). -/
inductive DriverOp where
  | setPixel (index : Nat) (color : Nat)
  | fillRange (color : Nat) (first count : Nat)
  | refresh
  | setBrightness (level : Int)
  deriving DecidableEq, Repr

/-- Library call `strip.setPixelColor(n, c)` : writes pixel `n` when `n` is in range
(the library bound-checks), otherwise does nothing.  `List.set` has exactly
this out-of-range-is-noop behaviour. -/
def setPixelColor (px : List Nat) (n : Nat) (c : Nat) : List Nat := px.set n c

/-- Library call `strip.fill(c, first, count)` : the Adafruit library returns unchanged
when `first ≥ numLEDs`, and otherwise fills indices `first ≤ i < e` where
`e` is `first + count` clamped to `numLEDs` (also used when `count = 0`). -/
def stripFill (px : List Nat) (c : Nat) (first count : Nat) : List Nat :=
  if px.length ≤ first then px
  else
    let e := if count = 0 ∨ px.length < first + count then px.length else first + count
    (List.range px.length).map fun i => if first ≤ i ∧ i < e then c else px.getD i 0

/-- The persistent state of the sketch: `int x` (last decoded code),
`int16_t neo_brightness`, and the strip's pixel contents. -/
structure SysState where
  x : Int
  neo_brightness : Int
  strip : List Nat
  deriving DecidableEq, Repr

/-- Inputs consumed by one `loop()` iteration: the serial token when
`Serial.available() > 0`, and the two raw touch readings. -/
structure TickInput where
  serial : Option String
  touch1 : Nat
  touch2 : Nat
  deriving DecidableEq, Repr

/-- C `isspace` on the ASCII characters `atol` skips. -/
def isSpaceC (c : Char) : Bool :=
  c = ' ' || c = '\t' || c = '\n' || c = '\x0b' || c = '\x0c' || c = '\r'

/-- Value of a leading run of decimal digits (empty run gives 0). -/
def digitsVal (l : List Char) : Nat :=
  (l.takeWhile Char.isDigit).foldl (fun a c => a * 10 + (c.toNat - 48)) 0

/-- Sign-and-digits part of `atol`, after the whitespace skip. -/
def toIntAux : List Char → Int
  | [] => 0
  | c :: rest =>
      if c = '-' then -(digitsVal rest : Int)
      else if c = '+' then (digitsVal rest : Int)
      else (digitsVal (c :: rest) : Int)

/-- Arduino `String.toInt()` = `atol`: skip leading whitespace, one optional sign,
then the digit run. -/
def toIntArduino (s : String) : Int :=
  toIntAux (s.data.dropWhile isSpaceC)

/-- The render step shared by the three call sites (lines 54-56, 66-68,
77-79): set pixel 0 to `bit_cols[x % 8]`, fill from pixel 1 on with
`sample_cols[x / 8]`, and `show()`.  Returns the new pixel contents and
the emitted driver operations.  `NUM_NEOPIXEL` is the strip length. -/
def render (oob : List Nat → Int → Nat) (x : Int) (px : List Nat) :
    List Nat × List DriverOp :=
  let c1 := tableGet bit_cols oob (Int.tmod x 8)
  let c2 := tableGet sample_cols oob (Int.tdiv x 8)
  let px1 := setPixelColor px 0 c1
  let px2 := stripFill px1 c2 1 px.length
  (px2, [DriverOp.setPixel 0 c1, DriverOp.fillRange c2 1 px.length, DriverOp.refresh])

/-- One `loop()` iteration: the serial branch (lines 52-57), the touch-1
branch (lines 65-73), the touch-2 branch (lines 76-84). -/
def tick (oob : List Nat → Int → Nat) (s : SysState) (inp : TickInput) :
    SysState × List DriverOp :=
  -- if (Serial.available()>0) { x = Serial.readString().toInt(); render }
  let (x1, px1, ops1) :=
    match inp.serial with
    | some tok =>
        let xNew := toIntArduino tok
        let (p, o) := render oob xNew s.strip
        (xNew, p, o)
    | none => (s.x, s.strip, ([] : List DriverOp))
  -- if (touch1 > 500) { render; neo_brightness = max(0, neo_brightness-1); setBrightness }
  let (b2, px2, ops2) :=
    if 500 < inp.touch1 then
      let (p, o) := render oob x1 px1
      let b := max 0 (s.neo_brightness - 1)
      (b, p, o ++ [DriverOp.setBrightness b])
    else (s.neo_brightness, px1, ([] : List DriverOp))
  -- if (touch2 > 500) { render; neo_brightness = min(255, neo_brightness+1); setBrightness }
  let (b3, px3, ops3) :=
    if 500 < inp.touch2 then
      let (p, o) := render oob x1 px2
      let b := min 255 (b2 + 1)
      (b, p, o ++ [DriverOp.setBrightness b])
    else (b2, px2, ([] : List DriverOp))
  (⟨x1, b3, px3⟩, ops1 ++ ops2 ++ ops3)

/-- Run a sequence of loop iterations, keeping only the state. -/
def runTicks (oob : List Nat → Int → Nat) (s : SysState) (l : List TickInput) :
    SysState :=
  l.foldl (fun st i => (tick oob st i).1) s

/-- Modelled from the spec: the bounds-checked palette accessor the spec
requires of a reimplementation (§4.2, §7, §9), absent from the source —
"replace raw array indexing with a bounds-checked accessor (e.g., a
function returning the sentinel color for any index outside the defined
palette)".  The sentinel is the last entry of the table. -/
def guardedGet (t : List Nat) (i : Int) : Nat :=
  match tableGet? t i with
  | some c => c
  | none => t.getD (t.length - 1) 0

theorem tick_x_eq (oob : List Nat → Int → Nat) (s : SysState) (inp : TickInput) :
    (tick oob s inp).1.x =
      (match inp.serial with
       | some tok => toIntArduino tok
       | none => s.x) := by
  cases h : inp.serial <;> simp only [tick, h] <;> (try split) <;> (try split) <;> rfl

theorem tick_nb_eq (oob : List Nat → Int → Nat) (s : SysState) (inp : TickInput) :
    (tick oob s inp).1.neo_brightness =
      (if 500 < inp.touch2 then
        min 255 ((if 500 < inp.touch1 then max 0 (s.neo_brightness - 1)
                  else s.neo_brightness) + 1)
       else
        (if 500 < inp.touch1 then max 0 (s.neo_brightness - 1)
         else s.neo_brightness)) := by
  cases h : inp.serial <;> simp only [tick, h] <;> (try split) <;> (try split) <;> rfl

theorem tick_nb_bounds (oob : List Nat → Int → Nat) (s : SysState) (inp : TickInput)
    (h0 : 0 ≤ s.neo_brightness) (h1 : s.neo_brightness ≤ 255) :
    0 ≤ (tick oob s inp).1.neo_brightness ∧ (tick oob s inp).1.neo_brightness ≤ 255 := by
  rw [tick_nb_eq]
  split <;> split <;> omega

theorem runTicks_cons (oob : List Nat → Int → Nat) (s : SysState) (i : TickInput)
    (l : List TickInput) :
    runTicks oob s (i :: l) = runTicks oob (tick oob s i).1 l := rfl

theorem runTicks_nb_bounds (oob : List Nat → Int → Nat) (l : List TickInput) :
    ∀ s : SysState, 0 ≤ s.neo_brightness → s.neo_brightness ≤ 255 →
      0 ≤ (runTicks oob s l).neo_brightness ∧ (runTicks oob s l).neo_brightness ≤ 255 := by
  induction l with
  | nil => exact fun s h0 h1 => ⟨h0, h1⟩
  | cons i t ih =>
      intro s h0 h1
      rw [runTicks_cons]
      have hb := tick_nb_bounds oob s i h0 h1
      exact ih _ hb.1 hb.2

theorem tick_nb_zero (oob : List Nat → Int → Nat) (s : SysState) (inp : TickInput)
    (h0 : s.neo_brightness = 0) (ht1 : 500 < inp.touch1) (ht2 : inp.touch2 ≤ 500) :
    (tick oob s inp).1.neo_brightness = 0 := by
  rw [tick_nb_eq, h0]
  rw [if_neg (by omega), if_pos ht1]
  omega

/-- Claim C1: over any sequence of ticks (arbitrary serial tokens and touch
readings), a brightness starting in [0,255] stays in [0,255] after every
tick — the decrement clamps at 0 (`max(0, b-1)`) and the increment at 255
(`min(255, b+1)`); and from Brightness = 0, any run of ticks with
touch1 = 600 and touch2 at most 500 leaves the brightness exactly 0 (no
underflow, no wraparound). -/
theorem brightness_always_in_range :
    (∀ (oob : List Nat → Int → Nat) (s : SysState) (l : List TickInput),
       0 ≤ s.neo_brightness → s.neo_brightness ≤ 255 →
       0 ≤ (runTicks oob s l).neo_brightness ∧
       (runTicks oob s l).neo_brightness ≤ 255) ∧
    (∀ (oob : List Nat → Int → Nat) (s : SysState) (l : List TickInput),
       s.neo_brightness = 0 →
       (∀ i ∈ l, i.touch1 = 600 ∧ i.touch2 ≤ 500) →
       (runTicks oob s l).neo_brightness = 0) := by
  refine ⟨fun oob s l => runTicks_nb_bounds oob l s, fun oob s l => ?_⟩
  induction l generalizing s with
  | nil => exact fun h0 _ => h0
  | cons i t ih =>
      intro h0 hl
      rw [runTicks_cons]
      refine ih _ ?_ (fun j hj => hl j (List.mem_cons_of_mem i hj))
      have hi := hl i (List.mem_cons_self i t)
      exact tick_nb_zero oob s i h0 (by omega) hi.2

theorem brightness_always_in_range_witness :
    (0 ≤ (⟨0, 20, [black, black, black, black]⟩ : SysState).neo_brightness ∧
     (⟨0, 20, [black, black, black, black]⟩ : SysState).neo_brightness ≤ 255) ∧
    (0 ≤ (runTicks (fun _ _ => 0) ⟨0, 20, [black, black, black, black]⟩
        [⟨some "17", 600, 0⟩, ⟨none, 0, 600⟩]).neo_brightness ∧
     (runTicks (fun _ _ => 0) ⟨0, 20, [black, black, black, black]⟩
        [⟨some "17", 600, 0⟩, ⟨none, 0, 600⟩]).neo_brightness ≤ 255) ∧
    (runTicks (fun _ _ => 0) ⟨0, 0, [black, black, black, black]⟩
        [⟨none, 600, 0⟩, ⟨none, 600, 500⟩]).neo_brightness = 0 := by
  refine ⟨by decide, ?_, ?_⟩
  · exact (brightness_always_in_range.1 (fun _ _ => 0)
      ⟨0, 20, [black, black, black, black]⟩
      [⟨some "17", 600, 0⟩, ⟨none, 0, 600⟩] (by decide) (by decide))
  · exact (brightness_always_in_range.2 (fun _ _ => 0)
      ⟨0, 0, [black, black, black, black]⟩
      [⟨none, 600, 0⟩, ⟨none, 600, 500⟩] (by decide) (by decide))

/-- Claim C2 counterexample: at starting Brightness = 0 with both touch readings
600 (> 500) in the same tick, the decrement clamps at 0 but the increment
still applies, so the brightness after the tick is 1, not the starting 0 —
the claimed "net equals before" fails at brightness 0. -/
theorem both_touch_net_counterexample :
    (tick (fun _ _ => 0) ⟨0, 0, [black, black, black, black]⟩
        ⟨none, 600, 600⟩).1.neo_brightness ≠
      (⟨0, 0, [black, black, black, black]⟩ : SysState).neo_brightness ∧
    (tick (fun _ _ => 0) ⟨0, 0, [black, black, black, black]⟩
        ⟨none, 600, 600⟩).1.neo_brightness = 1 := by
  decide

/-- Claim C2 amended: for every starting brightness in [1,255], when both touch
readings exceed 500 in the same tick both adjustments apply — the hardware
receives `setBrightness (b-1)` and then `setBrightness b` — and the net
brightness after the tick equals the brightness before it.  (At brightness
0 the decrement clamps and the net is +1.) -/
theorem both_touch_net_zero (oob : List Nat → Int → Nat) (s : SysState)
    (inp : TickInput) (h1 : 1 ≤ s.neo_brightness) (h2 : s.neo_brightness ≤ 255)
    (ht1 : 500 < inp.touch1) (ht2 : 500 < inp.touch2) :
    (tick oob s inp).1.neo_brightness = s.neo_brightness ∧
    DriverOp.setBrightness (s.neo_brightness - 1) ∈ (tick oob s inp).2 ∧
    DriverOp.setBrightness s.neo_brightness ∈ (tick oob s inp).2 := by
  have hmax : max 0 (s.neo_brightness - 1) = s.neo_brightness - 1 := by omega
  have hmin : min 255 (s.neo_brightness - 1 + 1) = s.neo_brightness := by omega
  refine ⟨?_, ?_, ?_⟩
  · rw [tick_nb_eq, if_pos ht2, if_pos ht1, hmax, hmin]
  · cases h : inp.serial <;>
      simp only [tick, h, if_pos ht1, if_pos ht2, hmax, hmin] <;>
      simp [List.mem_append]
  · cases h : inp.serial <;>
      simp only [tick, h, if_pos ht1, if_pos ht2, hmax, hmin] <;>
      simp [List.mem_append]

theorem both_touch_net_zero_witness :
    (tick (fun _ _ => 0) ⟨0, 10, [black, black, black, black]⟩
        ⟨none, 600, 600⟩).1.neo_brightness = 10 ∧
    DriverOp.setBrightness 9 ∈
      (tick (fun _ _ => 0) ⟨0, 10, [black, black, black, black]⟩ ⟨none, 600, 600⟩).2 ∧
    DriverOp.setBrightness 10 ∈
      (tick (fun _ _ => 0) ⟨0, 10, [black, black, black, black]⟩ ⟨none, 600, 600⟩).2 := by
  have h := both_touch_net_zero (fun _ _ => 0) ⟨0, 10, [black, black, black, black]⟩
    ⟨none, 600, 600⟩ (by decide) (by decide) (by decide) (by decide)
  exact ⟨h.1, by simpa using h.2.1, by simpa using h.2.2⟩

theorem render_px_eq (oob : List Nat → Int → Nat) (x : Int) (px : List Nat) :
    (render oob x px).1 =
      (List.range px.length).map
        (fun i => if i = 0 then tableGet bit_cols oob (Int.tmod x 8)
                  else tableGet sample_cols oob (Int.tdiv x 8)) := by
  match px with
  | [] => rfl
  | [a] => rfl
  | a :: b :: l =>
    simp only [render, setPixelColor, stripFill, List.length_cons, List.length_set]
    rw [if_neg (by omega)]
    have he : ((if l.length + 1 + 1 = 0 ∨ l.length + 1 + 1 < 1 + (l.length + 1 + 1)
        then l.length + 1 + 1 else 1 + (l.length + 1 + 1))) = l.length + 1 + 1 := by
      rw [if_pos (by omega)]
    rw [he]
    apply List.map_congr_left
    intro i hi
    rw [List.mem_range] at hi
    by_cases h0 : i = 0
    · subst h0
      rw [if_neg (by omega), if_pos rfl]
      rfl
    · rw [if_pos ⟨by omega, hi⟩, if_neg h0]

theorem render_ops_eq (oob : List Nat → Int → Nat) (x : Int) (px : List Nat) :
    (render oob x px).2 =
      [DriverOp.setPixel 0 (tableGet bit_cols oob (Int.tmod x 8)),
       DriverOp.fillRange (tableGet sample_cols oob (Int.tdiv x 8)) 1 px.length,
       DriverOp.refresh] := rfl

theorem render_length (oob : List Nat → Int → Nat) (x : Int) (px : List Nat) :
    ((render oob x px).1).length = px.length := by
  rw [render_px_eq, List.length_map, List.length_range]

/-- Claim C5: the render step (set pixel 0 from `bit_cols`, fill the remaining
pixels from `sample_cols`, refresh) is idempotent — run a second time on
its own output with unchanged `x` it produces exactly the same pixel
contents and the same driver-operation sequence — and it emits no
`setBrightness` operation, so the brightness level is also unchanged. -/
theorem render_idempotent (oob : List Nat → Int → Nat) (x : Int) (px : List Nat) :
    render oob x ((render oob x px).1) = render oob x px ∧
    (render oob x px).2 =
      [DriverOp.setPixel 0 (tableGet bit_cols oob (Int.tmod x 8)),
       DriverOp.fillRange (tableGet sample_cols oob (Int.tdiv x 8)) 1 px.length,
       DriverOp.refresh] := by
  refine ⟨Prod.ext ?_ ?_, render_ops_eq oob x px⟩
  · rw [render_px_eq, render_px_eq, List.length_map, List.length_range]
  · rw [render_ops_eq, render_ops_eq, render_length]

/-- Claim C3 counterexample: at code 5 the bit-depth index is 5 mod 8 = 5, and the
5-entry `bit_cols` table has no entry there: the unguarded source read
`bit_cols[5]` runs past the table instead of yielding the sentinel
(`darkred`, the last entry). -/
theorem bit_index_counterexample :
    Int.tmod 5 8 = 5 ∧
    tableGet? bit_cols (Int.tmod 5 8) = none ∧
    ¬ tableGet? bit_cols (Int.tmod 5 8) = some darkred := by
  decide

/-- Claim C3 amended: for every code ≥ 0 the bit-depth index code mod 8 lies in
[0,7]; indices 0-4 are inside the 5-entry `bit_cols` table, but for indices
5-7 the source's unguarded read is out of bounds (undefined), not the
sentinel; the bounds-checked accessor the spec prescribes for a
reimplementation does map indices 5-7 to the sentinel `darkred`. -/
theorem bit_index_range (code : Int) (h : 0 ≤ code) :
    (0 ≤ Int.tmod code 8 ∧ Int.tmod code 8 ≤ 7) ∧
    (Int.tmod code 8 ≤ 4 → (tableGet? bit_cols (Int.tmod code 8)).isSome = true) ∧
    (5 ≤ Int.tmod code 8 → tableGet? bit_cols (Int.tmod code 8) = none) ∧
    (5 ≤ Int.tmod code 8 → guardedGet bit_cols (Int.tmod code 8) = darkred) := by
  have h1 := Int.tmod_nonneg 8 h
  have h2 : Int.tmod code 8 ≤ 7 := by
    have := Int.tmod_lt_of_pos code (show (0:Int) < 8 by decide)
    omega
  generalize hg : Int.tmod code 8 = i at h1 h2 ⊢
  refine ⟨⟨h1, h2⟩, ?_, ?_, ?_⟩ <;> intro hle <;> interval_cases i <;> decide

theorem bit_index_range_witness :
    (0 ≤ (17:Int) ∧
      ((0 ≤ Int.tmod 17 8 ∧ Int.tmod 17 8 ≤ 7) ∧
       (Int.tmod 17 8 ≤ 4 → (tableGet? bit_cols (Int.tmod 17 8)).isSome = true) ∧
       (5 ≤ Int.tmod 17 8 → tableGet? bit_cols (Int.tmod 17 8) = none) ∧
       (5 ≤ Int.tmod 17 8 → guardedGet bit_cols (Int.tmod 17 8) = darkred))) ∧
    (0 ≤ (7:Int) ∧
      ((0 ≤ Int.tmod 7 8 ∧ Int.tmod 7 8 ≤ 7) ∧
       (Int.tmod 7 8 ≤ 4 → (tableGet? bit_cols (Int.tmod 7 8)).isSome = true) ∧
       (5 ≤ Int.tmod 7 8 → tableGet? bit_cols (Int.tmod 7 8) = none) ∧
       (5 ≤ Int.tmod 7 8 → guardedGet bit_cols (Int.tmod 7 8) = darkred))) :=
  ⟨⟨by decide, bit_index_range 17 (by decide)⟩,
   ⟨by decide, bit_index_range 7 (by decide)⟩⟩

/-- Claim C4 counterexample: at code 80 the sample-rate index is 80 / 8 = 10, and
the 10-entry `sample_cols` table has no entry there: the unguarded source
read `sample_cols[10]` runs past the table instead of yielding the sentinel
(`darkred`, the last entry). -/
theorem rate_index_counterexample :
    Int.tdiv 80 8 = 10 ∧ 9 ≤ Int.tdiv 80 8 ∧
    tableGet? sample_cols (Int.tdiv 80 8) = none ∧
    ¬ tableGet? sample_cols (Int.tdiv 80 8) = some darkred := by
  decide

/-- Claim C4 amended: for every code ≥ 0 the sample-rate index is code / 8
(truncating division), which is nonnegative; indices 0-9 are inside the
10-entry `sample_cols` table and index 9 is the sentinel `darkred`, but
for indices ≥ 10 the source's unguarded read is out of bounds (undefined),
not the sentinel; the bounds-checked accessor the spec prescribes for a
reimplementation does map every index ≥ 9 to the sentinel `darkred`. -/
theorem rate_index_range (code : Int) (h : 0 ≤ code) :
    0 ≤ Int.tdiv code 8 ∧
    (Int.tdiv code 8 ≤ 9 → (tableGet? sample_cols (Int.tdiv code 8)).isSome = true) ∧
    (Int.tdiv code 8 = 9 → tableGet? sample_cols (Int.tdiv code 8) = some darkred) ∧
    (10 ≤ Int.tdiv code 8 → tableGet? sample_cols (Int.tdiv code 8) = none) ∧
    (9 ≤ Int.tdiv code 8 → guardedGet sample_cols (Int.tdiv code 8) = darkred) := by
  have h1 : 0 ≤ Int.tdiv code 8 := Int.tdiv_nonneg h (by decide)
  generalize hg : Int.tdiv code 8 = i at h1 ⊢
  have hnone : 10 ≤ i → tableGet? sample_cols i = none := by
    intro h10
    rw [tableGet?, if_pos h1]
    exact List.get?_eq_none.mpr (by simp [sample_cols]; omega)
  refine ⟨h1, ?_, ?_, hnone, ?_⟩
  · intro hle
    interval_cases i <;> decide
  · intro he
    subst he
    decide
  · intro h9
    by_cases h10 : 10 ≤ i
    · rw [guardedGet, hnone h10]
      decide
    · have : i = 9 := by omega
      subst this
      decide

theorem rate_index_range_witness :
    (0 ≤ (17:Int) ∧
      (0 ≤ Int.tdiv 17 8 ∧
       (Int.tdiv 17 8 ≤ 9 → (tableGet? sample_cols (Int.tdiv 17 8)).isSome = true) ∧
       (Int.tdiv 17 8 = 9 → tableGet? sample_cols (Int.tdiv 17 8) = some darkred) ∧
       (10 ≤ Int.tdiv 17 8 → tableGet? sample_cols (Int.tdiv 17 8) = none) ∧
       (9 ≤ Int.tdiv 17 8 → guardedGet sample_cols (Int.tdiv 17 8) = darkred))) ∧
    (0 ≤ (75:Int) ∧
      (0 ≤ Int.tdiv 75 8 ∧
       (Int.tdiv 75 8 ≤ 9 → (tableGet? sample_cols (Int.tdiv 75 8)).isSome = true) ∧
       (Int.tdiv 75 8 = 9 → tableGet? sample_cols (Int.tdiv 75 8) = some darkred) ∧
       (10 ≤ Int.tdiv 75 8 → tableGet? sample_cols (Int.tdiv 75 8) = none) ∧
       (9 ≤ Int.tdiv 75 8 → guardedGet sample_cols (Int.tdiv 75 8) = darkred))) :=
  ⟨⟨by decide, rate_index_range 17 (by decide)⟩,
   ⟨by decide, rate_index_range 75 (by decide)⟩⟩

theorem tick_touch1_only (oob : List Nat → Int → Nat) (s : SysState) (t2 : Nat)
    (h : t2 ≤ 500) :
    (tick oob s ⟨none, 600, t2⟩).1 =
      ⟨s.x, max 0 (s.neo_brightness - 1), (render oob s.x s.strip).1⟩ ∧
    DriverOp.setBrightness (max 0 (s.neo_brightness - 1)) ∈
      (tick oob s ⟨none, 600, t2⟩).2 := by
  have h2 : ¬ (500 < t2) := by omega
  constructor
  · simp only [tick, if_pos (show (500:Nat) < 600 by decide), if_neg h2]
  · simp only [tick, if_pos (show (500:Nat) < 600 by decide), if_neg h2]
    simp [List.mem_append]

theorem tick_touch1_step (oob : List Nat → Int → Nat) (x b : Int) (px : List Nat)
    (t2 : Nat) (h : t2 ≤ 500) (b' : Int) (hb : max 0 (b - 1) = b') :
    (tick oob ⟨x, b, px⟩ ⟨none, 600, t2⟩).1 = ⟨x, b', (render oob x px).1⟩ ∧
    DriverOp.setBrightness b' ∈ (tick oob ⟨x, b, px⟩ ⟨none, 600, t2⟩).2 := by
  subst hb
  exact tick_touch1_only oob ⟨x, b, px⟩ t2 h

/-- Claim C6: with touch1 reading 600 (above the 500 threshold), touch2 at most
500 and no serial data on five consecutive ticks starting from
Brightness = 20, the brightness goes 19, 18, 17, 16, 15 — exactly one
decrement per tick down to 15 after the fifth — and every one of the five
ticks emits a hardware `setBrightness` operation carrying that tick's new
value. -/
theorem touch1_five_tick_ramp (oob : List Nat → Int → Nat) (x : Int)
    (px : List Nat) (t2 : Nat) (h : t2 ≤ 500) :
    ((tick oob (⟨x, 20, px⟩ : SysState) ⟨none, 600, t2⟩).1.neo_brightness = 19 ∧
     DriverOp.setBrightness 19 ∈ (tick oob (⟨x, 20, px⟩ : SysState) ⟨none, 600, t2⟩).2) ∧
    ((tick oob (tick oob (⟨x, 20, px⟩ : SysState) ⟨none, 600, t2⟩).1 ⟨none, 600, t2⟩).1.neo_brightness = 18 ∧
     DriverOp.setBrightness 18 ∈ (tick oob (tick oob (⟨x, 20, px⟩ : SysState) ⟨none, 600, t2⟩).1 ⟨none, 600, t2⟩).2) ∧
    ((tick oob (tick oob (tick oob (⟨x, 20, px⟩ : SysState) ⟨none, 600, t2⟩).1 ⟨none, 600, t2⟩).1 ⟨none, 600, t2⟩).1.neo_brightness = 17 ∧
     DriverOp.setBrightness 17 ∈ (tick oob (tick oob (tick oob (⟨x, 20, px⟩ : SysState) ⟨none, 600, t2⟩).1 ⟨none, 600, t2⟩).1 ⟨none, 600, t2⟩).2) ∧
    ((tick oob (tick oob (tick oob (tick oob (⟨x, 20, px⟩ : SysState) ⟨none, 600, t2⟩).1 ⟨none, 600, t2⟩).1 ⟨none, 600, t2⟩).1 ⟨none, 600, t2⟩).1.neo_brightness = 16 ∧
     DriverOp.setBrightness 16 ∈ (tick oob (tick oob (tick oob (tick oob (⟨x, 20, px⟩ : SysState) ⟨none, 600, t2⟩).1 ⟨none, 600, t2⟩).1 ⟨none, 600, t2⟩).1 ⟨none, 600, t2⟩).2) ∧
    ((tick oob (tick oob (tick oob (tick oob (tick oob (⟨x, 20, px⟩ : SysState) ⟨none, 600, t2⟩).1 ⟨none, 600, t2⟩).1 ⟨none, 600, t2⟩).1 ⟨none, 600, t2⟩).1 ⟨none, 600, t2⟩).1.neo_brightness = 15 ∧
     DriverOp.setBrightness 15 ∈ (tick oob (tick oob (tick oob (tick oob (tick oob (⟨x, 20, px⟩ : SysState) ⟨none, 600, t2⟩).1 ⟨none, 600, t2⟩).1 ⟨none, 600, t2⟩).1 ⟨none, 600, t2⟩).1 ⟨none, 600, t2⟩).2) := by
  obtain ⟨e1, m1⟩ := tick_touch1_step oob x 20 px t2 h 19 (by decide)
  obtain ⟨e2, m2⟩ := tick_touch1_step oob x 19 ((render oob x px).1) t2 h 18 (by decide)
  obtain ⟨e3, m3⟩ :=
    tick_touch1_step oob x 18 ((render oob x ((render oob x px).1)).1) t2 h 17 (by decide)
  obtain ⟨e4, m4⟩ :=
    tick_touch1_step oob x 17
      ((render oob x ((render oob x ((render oob x px).1)).1)).1) t2 h 16 (by decide)
  obtain ⟨e5, m5⟩ :=
    tick_touch1_step oob x 16
      ((render oob x ((render oob x ((render oob x ((render oob x px).1)).1)).1)).1)
      t2 h 15 (by decide)
  rw [e1, e2, e3, e4, e5]
  exact ⟨⟨rfl, m1⟩, ⟨rfl, m2⟩, ⟨rfl, m3⟩, ⟨rfl, m4⟩, ⟨rfl, m5⟩⟩

theorem touch1_five_tick_ramp_witness :
    (0:Nat) ≤ 500 ∧
    (((tick (fun _ _ => 0) (⟨0, 20, ([] : List Nat)⟩ : SysState) ⟨none, 600, 0⟩).1.neo_brightness = 19 ∧
     DriverOp.setBrightness 19 ∈ (tick (fun _ _ => 0) (⟨0, 20, ([] : List Nat)⟩ : SysState) ⟨none, 600, 0⟩).2) ∧
    ((tick (fun _ _ => 0) (tick (fun _ _ => 0) (⟨0, 20, ([] : List Nat)⟩ : SysState) ⟨none, 600, 0⟩).1 ⟨none, 600, 0⟩).1.neo_brightness = 18 ∧
     DriverOp.setBrightness 18 ∈ (tick (fun _ _ => 0) (tick (fun _ _ => 0) (⟨0, 20, ([] : List Nat)⟩ : SysState) ⟨none, 600, 0⟩).1 ⟨none, 600, 0⟩).2) ∧
    ((tick (fun _ _ => 0) (tick (fun _ _ => 0) (tick (fun _ _ => 0) (⟨0, 20, ([] : List Nat)⟩ : SysState) ⟨none, 600, 0⟩).1 ⟨none, 600, 0⟩).1 ⟨none, 600, 0⟩).1.neo_brightness = 17 ∧
     DriverOp.setBrightness 17 ∈ (tick (fun _ _ => 0) (tick (fun _ _ => 0) (tick (fun _ _ => 0) (⟨0, 20, ([] : List Nat)⟩ : SysState) ⟨none, 600, 0⟩).1 ⟨none, 600, 0⟩).1 ⟨none, 600, 0⟩).2) ∧
    ((tick (fun _ _ => 0) (tick (fun _ _ => 0) (tick (fun _ _ => 0) (tick (fun _ _ => 0) (⟨0, 20, ([] : List Nat)⟩ : SysState) ⟨none, 600, 0⟩).1 ⟨none, 600, 0⟩).1 ⟨none, 600, 0⟩).1 ⟨none, 600, 0⟩).1.neo_brightness = 16 ∧
     DriverOp.setBrightness 16 ∈ (tick (fun _ _ => 0) (tick (fun _ _ => 0) (tick (fun _ _ => 0) (tick (fun _ _ => 0) (⟨0, 20, ([] : List Nat)⟩ : SysState) ⟨none, 600, 0⟩).1 ⟨none, 600, 0⟩).1 ⟨none, 600, 0⟩).1 ⟨none, 600, 0⟩).2) ∧
    ((tick (fun _ _ => 0) (tick (fun _ _ => 0) (tick (fun _ _ => 0) (tick (fun _ _ => 0) (tick (fun _ _ => 0) (⟨0, 20, ([] : List Nat)⟩ : SysState) ⟨none, 600, 0⟩).1 ⟨none, 600, 0⟩).1 ⟨none, 600, 0⟩).1 ⟨none, 600, 0⟩).1 ⟨none, 600, 0⟩).1.neo_brightness = 15 ∧
     DriverOp.setBrightness 15 ∈ (tick (fun _ _ => 0) (tick (fun _ _ => 0) (tick (fun _ _ => 0) (tick (fun _ _ => 0) (tick (fun _ _ => 0) (⟨0, 20, ([] : List Nat)⟩ : SysState) ⟨none, 600, 0⟩).1 ⟨none, 600, 0⟩).1 ⟨none, 600, 0⟩).1 ⟨none, 600, 0⟩).1 ⟨none, 600, 0⟩).2)) :=
  ⟨by decide,
   touch1_five_tick_ramp (fun _ _ => 0) 0 [] 0 (by decide)⟩

theorem digitsVal_eq_zero (l : List Char) (h : ∀ c ∈ l, c.isDigit = false) :
    digitsVal l = 0 := by
  cases l with
  | nil => rfl
  | cons c rest =>
      unfold digitsVal
      rw [List.takeWhile_cons_of_neg]
      · rfl
      · simp [h c (List.mem_cons_self c rest)]

theorem toIntArduino_noDigits (s : String) (h : ∀ c ∈ s.data, c.isDigit = false) :
    toIntArduino s = 0 := by
  unfold toIntArduino
  cases hl : s.data.dropWhile isSpaceC with
  | nil => rfl
  | cons c rest =>
      have hsub : ∀ a ∈ c :: rest, a.isDigit = false := by
        intro a ha
        refine h a ?_
        have hs : List.Sublist (c :: rest) s.data := hl ▸ List.dropWhile_sublist isSpaceC
        exact hs.subset ha
      have h0 : digitsVal rest = 0 :=
        digitsVal_eq_zero rest (fun a ha => hsub a (List.mem_cons_of_mem c ha))
      have h1 : digitsVal (c :: rest) = 0 := digitsVal_eq_zero _ hsub
      rw [toIntAux]
      split_ifs <;> simp [h0, h1]

theorem tick_serial_lowTouch (oob : List Nat → Int → Nat) (s : SysState)
    (tok : String) (t1 t2 : Nat) (h1 : t1 ≤ 500) (h2 : t2 ≤ 500) :
    tick oob s ⟨some tok, t1, t2⟩ =
      (⟨toIntArduino tok, s.neo_brightness,
        (render oob (toIntArduino tok) s.strip).1⟩,
       (render oob (toIntArduino tok) s.strip).2) := by
  simp only [tick, if_neg (show ¬500 < t1 by omega), if_neg (show ¬500 < t2 by omega)]
  simp

/-- Claim C7: the serial token "17" decodes to 17; its bit index is
17 mod 8 = 1 and its rate index is 17 / 8 = 2, so `bit_cols[1] = red` goes
to pixel 0 and `sample_cols[2] = orange` fills every remaining pixel. -/
theorem decode_17_red_orange (oob : List Nat → Int → Nat) (x0 nb : Int)
    (px : List Nat) (t1 t2 : Nat) (h1 : t1 ≤ 500) (h2 : t2 ≤ 500) :
    toIntArduino "17" = 17 ∧
    Int.tmod 17 8 = 1 ∧ Int.tdiv 17 8 = 2 ∧
    tableGet? bit_cols 1 = some red ∧ tableGet? sample_cols 2 = some orange ∧
    (tick oob ⟨x0, nb, px⟩ ⟨some "17", t1, t2⟩).1.x = 17 ∧
    (tick oob ⟨x0, nb, px⟩ ⟨some "17", t1, t2⟩).1.strip =
      (List.range px.length).map (fun i => if i = 0 then red else orange) := by
  have ha : toIntArduino "17" = 17 := by decide
  have he := tick_serial_lowTouch oob ⟨x0, nb, px⟩ "17" t1 t2 h1 h2
  rw [ha] at he
  refine ⟨ha, by decide, by decide, by decide, by decide, ?_, ?_⟩
  · rw [he]
  · rw [he]
    show (render oob 17 px).1 = _
    rw [render_px_eq]
    simp only [show Int.tmod 17 8 = 1 from by decide,
               show Int.tdiv 17 8 = 2 from by decide,
               show tableGet bit_cols oob 1 = red from rfl,
               show tableGet sample_cols oob 2 = orange from rfl]

theorem decode_17_red_orange_witness :
    ((0:Nat) ≤ 500 ∧ (0:Nat) ≤ 500) ∧
    (toIntArduino "17" = 17 ∧
     Int.tmod 17 8 = 1 ∧ Int.tdiv 17 8 = 2 ∧
     tableGet? bit_cols 1 = some red ∧ tableGet? sample_cols 2 = some orange ∧
     (tick (fun _ _ => 0) ⟨0, 20, [black, black, black, black]⟩
         ⟨some "17", 0, 0⟩).1.x = 17 ∧
     (tick (fun _ _ => 0) ⟨0, 20, [black, black, black, black]⟩
         ⟨some "17", 0, 0⟩).1.strip =
       (List.range ([black, black, black, black] : List Nat).length).map
         (fun i => if i = 0 then red else orange)) :=
  ⟨⟨by decide, by decide⟩,
   decode_17_red_orange (fun _ _ => 0) 0 20 [black, black, black, black] 0 0
     (by decide) (by decide)⟩

/-- Claim C8: a serial token containing no decimal digit (in particular the empty
token) decodes to 0 — the permissive `atol` default, no error signalled —
the tick stores 0 as the last code, and the render that follows uses code
0: `bit_cols[0] = black` at pixel 0 and `sample_cols[0] = black` on the
remaining pixels. -/
theorem malformed_token_decodes_zero (oob : List Nat → Int → Nat) (x0 nb : Int)
    (px : List Nat) (tok : String) (t1 t2 : Nat)
    (hd : ∀ c ∈ tok.data, c.isDigit = false) (h1 : t1 ≤ 500) (h2 : t2 ≤ 500) :
    toIntArduino tok = 0 ∧
    (tick oob ⟨x0, nb, px⟩ ⟨some tok, t1, t2⟩).1.x = 0 ∧
    (tick oob ⟨x0, nb, px⟩ ⟨some tok, t1, t2⟩).1.strip =
      (List.range px.length).map (fun _ => black) := by
  have ha : toIntArduino tok = 0 := toIntArduino_noDigits tok hd
  have he := tick_serial_lowTouch oob ⟨x0, nb, px⟩ tok t1 t2 h1 h2
  rw [ha] at he
  refine ⟨ha, by rw [he], ?_⟩
  rw [he]
  show (render oob 0 px).1 = _
  rw [render_px_eq]
  simp only [show Int.tmod 0 8 = 0 from by decide,
             show Int.tdiv 0 8 = 0 from by decide,
             show tableGet bit_cols oob 0 = black from rfl,
             show tableGet sample_cols oob 0 = black from rfl, ite_self]

theorem malformed_token_decodes_zero_witness :
    ((∀ c ∈ ("alsa" : String).data, c.isDigit = false) ∧
     (0:Nat) ≤ 500 ∧ (0:Nat) ≤ 500) ∧
    (toIntArduino "alsa" = 0 ∧
     (tick (fun _ _ => 0) ⟨17, 20, [red, orange, orange, orange]⟩
         ⟨some "alsa", 0, 0⟩).1.x = 0 ∧
     (tick (fun _ _ => 0) ⟨17, 20, [red, orange, orange, orange]⟩
         ⟨some "alsa", 0, 0⟩).1.strip =
       (List.range ([red, orange, orange, orange] : List Nat).length).map
         (fun _ => black)) :=
  ⟨⟨by decide, by decide, by decide⟩,
   malformed_token_decodes_zero (fun _ _ => 0) 17 20 [red, orange, orange, orange]
     "alsa" 0 0 (by decide) (by decide) (by decide)⟩

/-- Claim C9: the decoder accepts the token "-5", stores the negative code -5,
and the C++ truncating `%` gives (-5) % 8 = -5 — a negative bit-depth
index outside [0,7] and outside the `bit_cols` table (the read is out of
bounds); nothing enforces the spec's nonnegativity assumption on codes. -/
theorem negative_code_escapes_range :
    toIntArduino "-5" = -5 ∧
    (tick (fun _ _ => 0) ⟨0, 20, [black, black, black, black]⟩
        ⟨some "-5", 0, 0⟩).1.x = -5 ∧
    Int.tmod (-5) 8 = -5 ∧
    Int.tmod (-5) 8 < 0 ∧
    tableGet? bit_cols (Int.tmod (-5) 8) = none := by
  decide

/-- Claim C10: the per-tick frame property. The serial branch never changes the
brightness (ticks differing only in serial input produce the same
brightness); the stored code after a tick is determined by the serial
input alone — unchanged when none is available, the decoded token
otherwise, irrespective of the touch readings; and a tick with no serial
data and both touch readings at or below 500 changes neither variable and
invokes no LED-driver operation. -/
theorem tick_frame :
    (∀ (oob : List Nat → Int → Nat) (x nb : Int) (px : List Nat)
       (t1 t2 : Nat) (ser1 ser2 : Option String),
       (tick oob ⟨x, nb, px⟩ ⟨ser1, t1, t2⟩).1.neo_brightness =
       (tick oob ⟨x, nb, px⟩ ⟨ser2, t1, t2⟩).1.neo_brightness) ∧
    (∀ (oob : List Nat → Int → Nat) (s : SysState) (inp : TickInput),
       (tick oob s inp).1.x =
         (match inp.serial with
          | some tok => toIntArduino tok
          | none => s.x)) ∧
    (∀ (oob : List Nat → Int → Nat) (s : SysState) (inp : TickInput),
       inp.serial = none → inp.touch1 ≤ 500 → inp.touch2 ≤ 500 →
       tick oob s inp = (s, [])) := by
  refine ⟨?_, tick_x_eq, ?_⟩
  · intro oob x nb px t1 t2 ser1 ser2
    rw [tick_nb_eq, tick_nb_eq]
  · intro oob s inp h0 h1 h2
    obtain ⟨ser, t1, t2⟩ := inp
    simp only at h0 h1 h2
    cases h0
    simp only [tick, if_neg (show ¬500 < t1 by omega), if_neg (show ¬500 < t2 by omega)]
    simp

theorem tick_frame_witness :
    ((tick (fun _ _ => 0) ⟨3, 7, [black]⟩ ⟨some "17", 0, 600⟩).1.neo_brightness =
     (tick (fun _ _ => 0) ⟨3, 7, [black]⟩ ⟨none, 0, 600⟩).1.neo_brightness) ∧
    ((tick (fun _ _ => 0) ⟨3, 7, [black]⟩ ⟨some "17", 600, 0⟩).1.x =
       toIntArduino "17") ∧
    ((⟨none, 100, 200⟩ : TickInput).serial = none ∧
     (⟨none, 100, 200⟩ : TickInput).touch1 ≤ 500 ∧
     (⟨none, 100, 200⟩ : TickInput).touch2 ≤ 500 ∧
     tick (fun _ _ => 0) ⟨3, 7, [black]⟩ ⟨none, 100, 200⟩ = (⟨3, 7, [black]⟩, [])) :=
  ⟨tick_frame.1 (fun _ _ => 0) 3 7 [black] 0 600 (some "17") none,
   tick_frame.2.1 (fun _ _ => 0) ⟨3, 7, [black]⟩ ⟨some "17", 600, 0⟩,
   rfl, by decide, by decide,
   tick_frame.2.2 (fun _ _ => 0) ⟨3, 7, [black]⟩ ⟨none, 100, 200⟩ rfl
     (by decide) (by decide)⟩
